import Mathlib

/-!
Verification of the GraphQL security engine of this repository
(`src/lib/security/graphql-security.ts`): query depth/complexity analysis,
query validation, the fixed-window rate limiter, the variable sanitizer,
and the configurable data masker.

The TypeScript source is embedded shallowly: the AST of a parsed query
document becomes an inductive tree, JSON-like dynamic values become a closed
sum type, machine time stamps become natural numbers (milliseconds), and the
module-level mutable rate-limit map becomes explicit state passing.
-/

namespace GraphQLSecurity

/-! ## Query document AST

The analyzers only read `definitions`, each definition's optional
`selectionSet.selections`, and each selection's optional nested
`selectionSet.selections`.  Absent structure is `none`. -/

/-- A selection node: a field name plus an optional child selection set
(the `selections` list of the node's `selectionSet`). -/
inductive Selection : Type where
  | mk (name : String) (selectionSet : Option (List Selection))

/-- An operation definition: operation keyword and optional selection set. -/
structure Definition where
  operation : String
  selectionSet : Option (List Selection)

/-- A query document; `definitions` may be absent (`undefined` in the source). -/
structure QueryDocument where
  definitions : Option (List Definition)

/-! ## Query analyzer (`analyzeQueryDepth`, `analyzeQueryComplexity`) -/

mutual
/-- `analyzeSelection` inside `analyzeQueryDepth`: the depth reached from a
selection that itself sits at `currentDepth`. -/
def analyzeSelectionDepth : Selection → Nat → Nat
  | Selection.mk _ none, currentDepth => currentDepth
  | Selection.mk _ (some sels), currentDepth =>
      max currentDepth (selectionsDepthMax sels (currentDepth + 1))

/-- `Math.max(...selections.map(child => analyzeSelection(child, d)))`.
`0` stands in for the `-Infinity` of an empty `Math.max`; it is always
absorbed, because every surrounding `max` has an operand `≥ 0`. -/
def selectionsDepthMax : List Selection → Nat → Nat
  | [], _ => 0
  | s :: rest, d => max (analyzeSelectionDepth s d) (selectionsDepthMax rest d)
end

/-- `analyzeQueryDepth` from the source: fold over the definitions, taking the
maximum of `analyzeSelection(selection, 1)` over each definition's top-level
selections. -/
def analyzeQueryDepth (query : QueryDocument) : Nat :=
  match query.definitions with
  | none => 0
  | some defs =>
      defs.foldl
        (fun maxDepth definition =>
          match definition.selectionSet with
          | none => maxDepth
          | some sels => max maxDepth (selectionsDepthMax sels 1))
        0

mutual
/-- `analyzeSelection` inside `analyzeQueryComplexity`: the selection
contributes its current `multiplier`, and children are visited with the
multiplier doubled. -/
def analyzeSelectionComplexity : Selection → Nat → Nat
  | Selection.mk _ none, multiplier => multiplier
  | Selection.mk _ (some sels), multiplier =>
      multiplier + selectionsComplexitySum sels (multiplier * 2)

/-- The `reduce((sum, child) => sum + analyzeSelection(child, m), 0)` of the
source, as a structural sum over the selection list. -/
def selectionsComplexitySum : List Selection → Nat → Nat
  | [], _ => 0
  | s :: rest, m => analyzeSelectionComplexity s m + selectionsComplexitySum rest m
end

/-- `analyzeQueryComplexity` from the source: sum, over all definitions with a
selection set, of the complexities of their top-level selections at
multiplier 1. -/
def analyzeQueryComplexity (query : QueryDocument) : Nat :=
  match query.definitions with
  | none => 0
  | some defs =>
      defs.foldl
        (fun complexity definition =>
          match definition.selectionSet with
          | none => complexity
          | some sels => complexity + selectionsComplexitySum sels 1)
        0

/-! ## Configuration constants (environment defaults) -/

def MAX_QUERY_DEPTH : Nat := 10

def MAX_QUERY_COMPLEXITY : Nat := 1000

def REQUEST_TIMEOUT : Nat := 10000

def RATE_LIMIT : Nat := 60

/-! ## `validateQuery` -/

structure ValidationResult where
  valid : Bool
  errors : List String
deriving Repr, DecidableEq

def depthErrorMsg (depth : Nat) : String :=
  "Query depth " ++ toString depth ++ " exceeds maximum allowed depth of "
    ++ toString MAX_QUERY_DEPTH

def complexityErrorMsg (complexity : Nat) : String :=
  "Query complexity " ++ toString complexity
    ++ " exceeds maximum allowed complexity of " ++ toString MAX_QUERY_COMPLEXITY

def noDefinitionErrorMsg : String := "Query must contain at least one definition"

/-- The `!query.definitions || query.definitions.length === 0` test. -/
def hasNoDefinitions (query : QueryDocument) : Bool :=
  match query.definitions with
  | none => true
  | some [] => true
  | some (_ :: _) => false

/-- `validateQuery` from the source: the three checks push their errors in
order (depth, complexity, zero definitions) without short-circuiting, and
`valid` is `errors.length === 0`.  (The `catch` branch of the source cannot
fire in this typed embedding: the analyzers are total.) -/
def validateQuery (query : QueryDocument) : ValidationResult :=
  let depth := analyzeQueryDepth query
  let complexity := analyzeQueryComplexity query
  let noDefs : Bool := hasNoDefinitions query
  let errors : List String :=
    (if MAX_QUERY_DEPTH < depth then [depthErrorMsg depth] else [])
      ++ (if MAX_QUERY_COMPLEXITY < complexity then [complexityErrorMsg complexity] else [])
      ++ (if noDefs then [noDefinitionErrorMsg] else [])
  { valid := errors.isEmpty, errors := errors }

/-! ## Spec-side depth and complexity

These definitions follow the spec's words ("a query with no nested selections
under any top-level field has depth 1; each level of nested selection set adds
1; the result is the maximum over all paths in all operation definitions";
"a selection nested d levels below the top contributes 2^d") and are compared
with the source-derived analyzers above. -/

mutual
/-- Spec-side depth of one selection: 1 for a leaf, otherwise one more than
the maximum depth among its children. -/
def specSelectionDepth : Selection → Nat
  | Selection.mk _ none => 1
  | Selection.mk _ (some sels) => 1 + specSelectionsDepthMax sels

/-- Maximum spec-side depth over a list of selections (0 for the empty list). -/
def specSelectionsDepthMax : List Selection → Nat
  | [] => 0
  | s :: rest => max (specSelectionDepth s) (specSelectionsDepthMax rest)
end

/-- Spec-side document depth: the maximum over all operation definitions of the
deepest path in their selection sets; 0 when there are no definitions or no
selection sets. -/
def specQueryDepth (query : QueryDocument) : Nat :=
  match query.definitions with
  | none => 0
  | some defs =>
      defs.foldl
        (fun m definition =>
          match definition.selectionSet with
          | none => m
          | some sels => max m (specSelectionsDepthMax sels))
        0

mutual
/-- Spec-side contribution of a selection nested `d` levels below the top:
`2 ^ d` for the selection itself plus its descendants' contributions one
level deeper. -/
def specSelectionComplexity : Selection → Nat → Nat
  | Selection.mk _ none, d => 2 ^ d
  | Selection.mk _ (some sels), d => 2 ^ d + specSelectionsComplexitySum sels (d + 1)

/-- Sum of spec-side contributions over a list of selections at level `d`. -/
def specSelectionsComplexitySum : List Selection → Nat → Nat
  | [], _ => 0
  | s :: rest, d => specSelectionComplexity s d + specSelectionsComplexitySum rest d
end

/-- Spec-side document complexity: the sum over all operation definitions of
their top-level selections' contributions, top level being level 0. -/
def specQueryComplexity (query : QueryDocument) : Nat :=
  match query.definitions with
  | none => 0
  | some defs =>
      defs.foldl
        (fun c definition =>
          match definition.selectionSet with
          | none => c
          | some sels => c + specSelectionsComplexitySum sels 0)
        0

/-! ## Concrete query builders (used as proof witnesses) -/

/-- A straight chain of selections: `chainSelection n` nests `n + 1` selection
levels. -/
def chainSelection : Nat → Selection
  | 0 => Selection.mk "field" none
  | n + 1 => Selection.mk "f" (some [chainSelection n])

/-- A single-operation document whose only path has depth `n + 1`. -/
def chainQuery (n : Nat) : QueryDocument :=
  { definitions :=
      some [{ operation := "query", selectionSet := some [chainSelection n] }] }

/-- A single-operation document whose top-level selections are the given
leaves. -/
def flatQuery (op : String) (names : List String) : QueryDocument :=
  { definitions :=
      some [{ operation := op,
              selectionSet := some (names.map fun n => Selection.mk n none) }] }

/-! ## Rate limiter (`checkRateLimit`)

The module-level `rateLimitMap` of the source becomes an explicit store
passed in and returned; `Date.now()` becomes an explicit `now` argument in
milliseconds. -/

structure RateLimitInfo where
  count : Nat
  resetTime : Nat
deriving Repr, DecidableEq

structure RateLimitResult where
  allowed : Bool
  remaining : Nat
  resetTime : Nat
deriving Repr, DecidableEq

/-- `const windowMs = 60 * 1000`. -/
def windowMs : Nat := 60 * 1000

/-- The per-identifier store (`rateLimitMap`). -/
def RateLimitMap : Type := String → Option RateLimitInfo

/-- `checkRateLimit` from the source: start a fresh window when there is no
entry or the stored window has elapsed (`now > resetTime`); return blocked
without incrementing when the count has reached the limit; otherwise
increment, persist, and report the remaining budget. -/
def checkRateLimit (now : Nat) (identifier : String) (store : RateLimitMap) :
    RateLimitResult × RateLimitMap :=
  let info : RateLimitInfo :=
    match store identifier with
    | none => { count := 0, resetTime := now + windowMs }
    | some i =>
        if i.resetTime < now then { count := 0, resetTime := now + windowMs } else i
  if RATE_LIMIT ≤ info.count then
    ({ allowed := false, remaining := 0, resetTime := info.resetTime }, store)
  else
    let info2 : RateLimitInfo := { count := info.count + 1, resetTime := info.resetTime }
    ({ allowed := true, remaining := RATE_LIMIT - info2.count,
        resetTime := info2.resetTime },
      fun i => if i = identifier then some info2 else store i)

/-- Run a sequence of calls for one identifier, threading the store. -/
def runRateLimitCalls (times : List Nat) (identifier : String)
    (store : RateLimitMap) : RateLimitMap :=
  times.foldl (fun st t => (checkRateLimit t identifier st).2) store

/-! ## JSON-like dynamic values

The `Record<string, unknown>` payloads of the source are modelled as a closed
sum type.  A JS number is classified exactly as far as the source inspects it
(`isFinite` / `isNaN`), with an `Int` payload for the finite case. -/

inductive JSNumber : Type where
  | finite (v : Int)
  | posInf
  | negInf
  | nan
deriving Repr, DecidableEq

inductive JSValue : Type where
  | null
  | undef
  | bool (b : Bool)
  | num (n : JSNumber)
  | str (s : String)
  | arr (elems : List JSValue)
  | obj (fields : List (String × JSValue))

/-! ## Character-level string machinery

The sanitizer and the masker use JavaScript regular-expression replacement.
Each regex of the source is compiled by hand into a deterministic left-to-right
scanner over `List Char`; fuel (bounded by the string length, each step
consuming at least one character) keeps the definitions kernel-reducible. -/

/-- JS `\w`: ASCII letters, digits, underscore. -/
def isWordChar (c : Char) : Bool :=
  c.isAlphanum || c == '_'

/-- JS `\s`, restricted to the ASCII whitespace the repository's data can
contain: space, tab, newline, carriage return, vertical tab, form feed. -/
def isJSSpace (c : Char) : Bool :=
  c == ' ' || c == '\t' || c == '\n' || c == '\r' || c == '\x0b' || c == '\x0c'

/-- Case-insensitive "the pattern is a prefix of `s`". -/
def startsWithCI : List Char → List Char → Bool
  | [], _ => true
  | _ :: _, [] => false
  | p :: ps, c :: cs => (c.toLower == p.toLower) && startsWithCI ps cs

/-- Generic global-replace scanner: at each position, `tryFn` either matches a
non-empty span (returning its length and the replacement) or the current
character is emitted unchanged.  `fuel` is the remaining number of scan steps
and always starts at the string length. -/
def replaceScanGo (tryFn : List Char → Option (Nat × List Char)) :
    Nat → List Char → List Char
  | _, [] => []
  | 0, s => s
  | fuel + 1, c :: rest =>
      match tryFn (c :: rest) with
      | some (k, repl) => repl ++ replaceScanGo tryFn fuel ((c :: rest).drop k)
      | none => c :: replaceScanGo tryFn fuel rest

def replaceScan (tryFn : List Char → Option (Nat × List Char))
    (s : List Char) : List Char :=
  replaceScanGo tryFn s.length s

/-- Scan for the first case-insensitive occurrence of a terminator pattern and
return the remainder after it (used to locate the first closing tag). -/
def dropAfterCI (pat : List Char) : Nat → List Char → Option (List Char)
  | _, [] => none
  | 0, _ => none
  | fuel + 1, c :: rest =>
      if startsWithCI pat (c :: rest) then some ((c :: rest).drop pat.length)
      else dropAfterCI pat fuel rest

/-- `/<script\b[^<]*(?:(?!<\/script>)<[^<]*)*<\/script>/gi`: a case-insensitive
`<script` at a word boundary, everything up to and including the first
following case-insensitive `</script>` (no match when it is never closed). -/
def tryScriptBlock (s : List Char) : Option (Nat × List Char) :=
  if startsWithCI "<script".data s then
    let rest := s.drop 7
    let boundaryOk : Bool :=
      match rest with
      | [] => true
      | c :: _ => !isWordChar c
    if boundaryOk then
      match dropAfterCI "</script>".data rest.length rest with
      | some rem => some (s.length - rem.length, [])
      | none => none
    else none
  else none

/-- `/javascript:/gi`. -/
def tryJavascriptScheme (s : List Char) : Option (Nat × List Char) :=
  if startsWithCI "javascript:".data s then some (11, []) else none

/-- `/on\w+\s*=/gi`: case-insensitive `on`, a maximal nonempty run of word
characters, a maximal run of whitespace, then `=` (the greedy runs need no
backtracking: giving back a word character or a whitespace character can never
make the following `=` match). -/
def tryEventHandler (s : List Char) : Option (Nat × List Char) :=
  match s with
  | c1 :: c2 :: rest =>
      if c1.toLower == 'o' && c2.toLower == 'n' then
        let w := rest.takeWhile isWordChar
        if w.length == 0 then none
        else
          let afterW := rest.drop w.length
          let sp := afterW.takeWhile isJSSpace
          match afterW.drop sp.length with
          | '=' :: _ => some (2 + w.length + sp.length + 1, [])
          | _ => none
      else none
  | _ => none

def stripScriptBlocks (s : List Char) : List Char := replaceScan tryScriptBlock s

def stripJavascriptScheme (s : List Char) : List Char :=
  replaceScan tryJavascriptScheme s

def stripEventHandlers (s : List Char) : List Char := replaceScan tryEventHandler s

/-- `String.prototype.trim`. -/
def trimChars (s : List Char) : List Char :=
  ((s.dropWhile isJSSpace).reverse.dropWhile isJSSpace).reverse

/-- The string branch of `sanitizeVariables`:
`.replace(script regex, "").replace(/javascript:/gi, "").replace(/on\w+\s*=/gi, "").trim()`. -/
def sanitizeString (s : String) : String :=
  String.mk (trimChars (stripEventHandlers (stripJavascriptScheme
    (stripScriptBlocks s.data))))

/-! ## `sanitizeVariables` -/

mutual
/-- `sanitizeVariables` from the source, entry list form: every entry is kept
(in order) with its value sanitized. -/
def sanitizeVariables : List (String × JSValue) → List (String × JSValue)
  | [] => []
  | (key, value) :: rest => (key, sanitizeEntryValue value) :: sanitizeVariables rest

/-- The per-entry branch cascade of `sanitizeVariables`: null/undefined pass
through; strings are cleaned; non-finite numbers become 0; booleans pass
through; arrays sanitize exactly their string elements (the source routes a
string element through `sanitizeVariables({item}).item`, which is the string
rule, and passes every other element through unchanged); nested objects
recurse. -/
def sanitizeEntryValue : JSValue → JSValue
  | JSValue.null => JSValue.null
  | JSValue.undef => JSValue.undef
  | JSValue.str s => JSValue.str (sanitizeString s)
  | JSValue.num (JSNumber.finite v) => JSValue.num (JSNumber.finite v)
  | JSValue.num JSNumber.posInf => JSValue.num (JSNumber.finite 0)
  | JSValue.num JSNumber.negInf => JSValue.num (JSNumber.finite 0)
  | JSValue.num JSNumber.nan => JSValue.num (JSNumber.finite 0)
  | JSValue.bool b => JSValue.bool b
  | JSValue.arr items =>
      JSValue.arr (items.map fun item =>
        match item with
        | JSValue.str s => JSValue.str (sanitizeString s)
        | other => other)
  | JSValue.obj fields => JSValue.obj (sanitizeVariables fields)
end

/-! ## Data masker: configuration and field matching -/

structure DataMaskingConfig where
  enableMasking : Bool
  maskSensitiveFields : Bool
  logSafeMode : Bool
  maskingPattern : String
  sensitiveFields : List String
  partialMaskingFields : List String
deriving Repr

/-- `DEFAULT_MASKING_CONFIG`; `enableMasking` is
`process.env.NODE_ENV === 'production'`, made explicit as a parameter. -/
def defaultMaskingConfig (nodeEnv : String) : DataMaskingConfig :=
  { enableMasking := nodeEnv == "production"
    maskSensitiveFields := true
    logSafeMode := true
    maskingPattern := "***"
    sensitiveFields := ["id", "created", "dimension", "episode.created",
      "origin.id", "location.id"]
    partialMaskingFields := ["name", "image", "air_date"] }

/-- JS `haystack.includes(pattern)` on `List Char`. -/
def hasSubstring (hay pat : List Char) : Bool :=
  match hay with
  | [] => pat.isEmpty
  | _ :: rest => pat.isPrefixOf hay || hasSubstring rest pat

/-- JS `String.prototype.toLowerCase`, character-wise (the field names and
fragments involved are ASCII). -/
def lowerChars (s : String) : List Char :=
  s.data.map Char.toLower

/-- `DataMasker.isSensitiveField`: bidirectional case-insensitive substring
test against the configured sensitive fragments. -/
def isSensitiveField (cfg : DataMaskingConfig) (fieldName : String) : Bool :=
  cfg.sensitiveFields.any fun field =>
    hasSubstring (lowerChars fieldName) (lowerChars field)
      || hasSubstring (lowerChars field) (lowerChars fieldName)

/-- `DataMasker.isPartialMaskingField`: one-directional case-insensitive
substring test (the fragment must occur inside the field name). -/
def isPartialMaskingField (cfg : DataMaskingConfig) (fieldName : String) : Bool :=
  cfg.partialMaskingFields.any fun field =>
    hasSubstring (lowerChars fieldName) (lowerChars field)

/-- The spec's bidirectional matching rule, written from its words: some
fragment is a case-insensitive substring of the field name, or the field name
is a case-insensitive substring of the fragment. -/
def specBidirectionalMatch (fragments : List String) (fieldName : String) : Bool :=
  fragments.any fun field =>
    hasSubstring (lowerChars fieldName) (lowerChars field)
      || hasSubstring (lowerChars field) (lowerChars fieldName)

/-- The one-directional rule: some fragment is a case-insensitive substring of
the field name. -/
def specOneDirectionalMatch (fragments : List String) (fieldName : String) : Bool :=
  fragments.any fun field =>
    hasSubstring (lowerChars fieldName) (lowerChars field)

/-! ## Partial masking -/

/-- `DataMasker.partialMask`: strings of length ≤ 4 become the mask pattern;
otherwise the first and last `Math.max(1, Math.floor(length * 0.3))`
characters stay visible around the pattern.  `Math.floor(length * 0.3)` is
embedded as `length * 3 / 10`: the two agree for every string length (the
double product of `length` with the rounded constant 0.3 never crosses an
integer boundary before rounding). -/
def partialMask (cfg : DataMaskingConfig) (value : String) : String :=
  if value.length ≤ 4 then cfg.maskingPattern
  else
    let visibleChars := max 1 (value.length * 3 / 10)
    String.mk (value.data.take visibleChars) ++ cfg.maskingPattern
      ++ String.mk (value.data.drop (value.length - visibleChars))

/-! ## Deep masking walk (`deepMaskObject`, `maskResponseData`,
`createAuditLogData`) -/

mutual
/-- `DataMasker.deepMaskObject`: null/undefined and non-objects pass through,
arrays map the walk over their elements, objects run the entry cascade. -/
def deepMaskObject (cfg : DataMaskingConfig) (isAuditLog : Bool) :
    JSValue → JSValue
  | JSValue.null => JSValue.null
  | JSValue.undef => JSValue.undef
  | JSValue.bool b => JSValue.bool b
  | JSValue.num n => JSValue.num n
  | JSValue.str s => JSValue.str s
  | JSValue.arr items => JSValue.arr (deepMaskItems cfg isAuditLog items)
  | JSValue.obj fields => JSValue.obj (deepMaskFields cfg isAuditLog fields)

def deepMaskItems (cfg : DataMaskingConfig) (isAuditLog : Bool) :
    List JSValue → List JSValue
  | [] => []
  | v :: rest => deepMaskObject cfg isAuditLog v :: deepMaskItems cfg isAuditLog rest

/-- The per-entry cascade of `deepMaskObject`: sensitive keys are deleted in
audit mode and replaced by the pattern otherwise; partial-mask string values
are partially masked; object/array values recurse; anything else passes. -/
def deepMaskFields (cfg : DataMaskingConfig) (isAuditLog : Bool) :
    List (String × JSValue) → List (String × JSValue)
  | [] => []
  | (key, value) :: rest =>
      if isSensitiveField cfg key then
        if isAuditLog then deepMaskFields cfg isAuditLog rest
        else (key, JSValue.str cfg.maskingPattern)
          :: deepMaskFields cfg isAuditLog rest
      else
        match value with
        | JSValue.str s =>
            if isPartialMaskingField cfg key then
              (key, JSValue.str (partialMask cfg s))
                :: deepMaskFields cfg isAuditLog rest
            else (key, JSValue.str s) :: deepMaskFields cfg isAuditLog rest
        | JSValue.arr items =>
            (key, deepMaskObject cfg isAuditLog (JSValue.arr items))
              :: deepMaskFields cfg isAuditLog rest
        | JSValue.obj fs =>
            (key, deepMaskObject cfg isAuditLog (JSValue.obj fs))
              :: deepMaskFields cfg isAuditLog rest
        | other => (key, other) :: deepMaskFields cfg isAuditLog rest
end

/-- `DataMasker.maskResponseData`: identity when masking is disabled. -/
def maskResponseData (cfg : DataMaskingConfig) (data : JSValue) : JSValue :=
  if cfg.enableMasking then deepMaskObject cfg false data else data

/-- `DataMasker.createAuditLogData`: identity when `logSafeMode` is off,
otherwise the deep walk in audit mode (`deepMaskObject(data, true)`). -/
def createAuditLogData (cfg : DataMaskingConfig) (data : JSValue) : JSValue :=
  if cfg.logSafeMode then deepMaskObject cfg true data else data

/-- The value transformation applied to a non-sensitive entry by the deep
walk, shared by the masking and the audit variants. -/
def maskedEntryValue (cfg : DataMaskingConfig) (isAuditLog : Bool)
    (key : String) : JSValue → JSValue
  | JSValue.str s =>
      if isPartialMaskingField cfg key then JSValue.str (partialMask cfg s)
      else JSValue.str s
  | JSValue.arr items => deepMaskObject cfg isAuditLog (JSValue.arr items)
  | JSValue.obj fs => deepMaskObject cfg isAuditLog (JSValue.obj fs)
  | other => other

/-! ## Error-message masking (`DataMasker.maskErrorMessage`)

Each `.replace` of the source is a dedicated scanner.  Patterns that assert
word boundaries carry the previously consumed character as context. -/

/-- JS truthiness of `x || d` for an optional string: `undefined` and the
empty string both fall back to the default. -/
def jsOrElse (message? : Option String) (d : String) : String :=
  match message? with
  | none => d
  | some s => if s = "" then d else s

/-- `/\b\d{1,6}\b/g → pattern`: a maximal digit run of length 1–6 delimited on
both sides by a non-word character or a string end is replaced; longer runs
and runs touching word characters are left alone. -/
def maskDigitRunsGo (repl : List Char) : Option Char → Nat → List Char → List Char
  | _, _, [] => []
  | _, 0, s => s
  | prev, fuel + 1, c :: rest =>
      let boundary : Bool :=
        match prev with
        | none => true
        | some p => !isWordChar p
      if boundary && c.isDigit then
        let run := (c :: rest).takeWhile Char.isDigit
        let after := (c :: rest).drop run.length
        let afterOk : Bool :=
          match after with
          | [] => true
          | a :: _ => !isWordChar a
        if run.length ≤ 6 && afterOk then
          repl ++ maskDigitRunsGo repl (run.getLast?.getD c) fuel after
        else
          run ++ maskDigitRunsGo repl (run.getLast?.getD c) fuel after
      else c :: maskDigitRunsGo repl (some c) fuel rest

def maskDigitRuns (pattern : String) (s : List Char) : List Char :=
  maskDigitRunsGo pattern.data none s.length s

/-- `/https?:\/\/[^\s]+/g → "[MASKED_URL]"` (case-sensitive scheme, then a
maximal nonempty run of non-whitespace). -/
def tryURL (s : List Char) : Option (Nat × List Char) :=
  let withScheme (schemeLen : Nat) : Option (Nat × List Char) :=
    let run := (s.drop schemeLen).takeWhile fun c => !isJSSpace c
    if run.length == 0 then none
    else some (schemeLen + run.length, "[MASKED_URL]".data)
  if "https://".data.isPrefixOf s then withScheme 8
  else if "http://".data.isPrefixOf s then withScheme 7
  else none

/-- `/[a-zA-Z0-9]{20,}/g → "[MASKED_TOKEN]"`: a maximal alphanumeric run of
length at least 20. -/
def tryLongToken (s : List Char) : Option (Nat × List Char) :=
  match s with
  | [] => none
  | c :: _ =>
      if c.isAlphanum then
        let run := s.takeWhile Char.isAlphanum
        if 20 ≤ run.length then some (run.length, "[MASKED_TOKEN]".data) else none
      else none

/-- Local part class `[A-Za-z0-9._%+-]` of the email pattern. -/
def isLocalChar (c : Char) : Bool :=
  c.isAlphanum || c == '.' || c == '_' || c == '%' || c == '+' || c == '-'

/-- Domain class `[A-Za-z0-9.-]`. -/
def isDomainChar (c : Char) : Bool :=
  c.isAlphanum || c == '.' || c == '-'

/-- Top-level-domain class: the source writes `[A-Z|a-z]`, which literally
also contains the bar character. -/
def isTldChar (c : Char) : Bool :=
  c.isAlpha || c == '|'

/-- Greedy `[A-Z|a-z]{2,}\b` at the start of `s`: try the longest viable
length first, backing off while the position after the match is not a word
boundary. -/
def tldSearch (s : List Char) : Nat → Option Nat
  | 0 => none
  | 1 => none
  | t + 2 =>
      match s.drop (t + 2) with
      | [] => some (t + 2)
      | a :: _ => if isWordChar a then tldSearch s (t + 1) else some (t + 2)

/-- Greedy `[A-Za-z0-9.-]+\.[A-Z|a-z]{2,}\b` at the start of `s`: the domain
run backs off from its maximal length until a dot followed by a viable TLD is
found. -/
def domainSearch (s : List Char) : Nat → Option Nat
  | 0 => none
  | d + 1 =>
      match s.drop (d + 1) with
      | '.' :: afterDot =>
          let tldRun := afterDot.takeWhile isTldChar
          match tldSearch afterDot tldRun.length with
          | some t => some (d + 1 + 1 + t)
          | none => domainSearch s d
      | _ => domainSearch s d

/-- One attempt of
`/\b[A-Za-z0-9._%+-]+@[A-Za-z0-9.-]+\.[A-Z|a-z]{2,}\b/` at the current
position, given the previous original character; returns the match length. -/
def tryEmailAt (prev : Option Char) (s : List Char) : Option Nat :=
  match s with
  | [] => none
  | first :: _ =>
      let prevWord : Bool :=
        match prev with
        | none => false
        | some p => isWordChar p
      if prevWord == isWordChar first then none
      else
        let lp := s.takeWhile isLocalChar
        if lp.length == 0 then none
        else
          match s.drop lp.length with
          | '@' :: afterAt =>
              let domRun := afterAt.takeWhile isDomainChar
              match domainSearch afterAt domRun.length with
              | some dlen => some (lp.length + 1 + dlen)
              | none => none
          | _ => none

/-- The email replacement scan (`→ "[MASKED_EMAIL]"`), carrying the previous
original character for the leading word-boundary assertion. -/
def maskEmailsGo : Option Char → Nat → List Char → List Char
  | _, _, [] => []
  | _, 0, s => s
  | prev, fuel + 1, c :: rest =>
      match tryEmailAt prev (c :: rest) with
      | some k =>
          "[MASKED_EMAIL]".data
            ++ maskEmailsGo ((c :: rest).take k).getLast? fuel ((c :: rest).drop k)
      | none => c :: maskEmailsGo (some c) fuel rest

def maskEmails (s : List Char) : List Char :=
  maskEmailsGo none s.length s

/-- `[:\s"']` of the field-specific pattern. -/
def isSepChar (c : Char) : Bool :=
  c == ':' || isJSSpace c || c == '"' || c == '\''

/-- `[^\s"',}]` of the field-specific pattern. -/
def isValueChar (c : Char) : Bool :=
  !(isJSSpace c || c == '"' || c == '\'' || c == ',' || c == '\x7d')

/-- One pattern character of the interpolated field name: the source feeds
the raw field name to `new RegExp`, so a `.` inside a configured field (as in
`episode.created`) is a regex wildcard; the default fragments contain no other
metacharacter.  Matching is case-insensitive (`i` flag). -/
def fieldCharMatch (p c : Char) : Bool :=
  p == '.' || p.toLower == c.toLower

def matchFieldPat : List Char → List Char → Bool
  | [], _ => true
  | _ :: _, [] => false
  | p :: ps, c :: cs => fieldCharMatch p c && matchFieldPat ps cs

/-- Greedy `[:\s"']*` followed by a nonempty `[^\s"',}]+`: back off the
separator run from its maximal length until a nonempty value run follows. -/
def sepBacktrack (afterF : List Char) : Nat → Option (Nat × Nat)
  | 0 =>
      let v := (afterF.takeWhile isValueChar).length
      if 1 ≤ v then some (0, v) else none
  | k + 1 =>
      let v := ((afterF.drop (k + 1)).takeWhile isValueChar).length
      if 1 ≤ v then some (k + 1, v) else sepBacktrack afterF k

/-- ``new RegExp(`${field}[:\s"']*([^\s"',}]+)`, 'gi')`` replaced by
```${field}: ${pattern}` ``. -/
def tryFieldPat (field : List Char) (repl : List Char) (s : List Char) :
    Option (Nat × List Char) :=
  if matchFieldPat field s then
    let afterF := s.drop field.length
    let sepMax := (afterF.takeWhile isSepChar).length
    match sepBacktrack afterF sepMax with
    | some (k, v) => some (field.length + k + v, repl)
    | none => none
  else none

/-- The per-sensitive-field replacement loop of `maskErrorMessage`. -/
def maskSensitiveFieldMentions (cfg : DataMaskingConfig) (s : List Char) :
    List Char :=
  cfg.sensitiveFields.foldl
    (fun msg field =>
      replaceScan
        (tryFieldPat field.data (field.data ++ ": ".data ++ cfg.maskingPattern.data))
        msg)
    s

/-- The masking pipeline of `maskErrorMessage` (digits, URLs, long tokens,
emails, then field mentions), in source order. -/
def maskErrorPipeline (cfg : DataMaskingConfig) (original : String) : List Char :=
  maskSensitiveFieldMentions cfg
    (maskEmails
      (replaceScan tryLongToken
        (replaceScan tryURL
          (maskDigitRuns cfg.maskingPattern original.data))))

/-- `DataMasker.maskErrorMessage`: raw message (or "Unknown error") when
masking is disabled; otherwise the pipeline result, or the generic fallback
when it is empty. -/
def maskErrorMessage (cfg : DataMaskingConfig) (message? : Option String) : String :=
  if !cfg.enableMasking then jsOrElse message? "Unknown error"
  else
    let original := jsOrElse message? ""
    let masked := maskErrorPipeline cfg original
    if masked.isEmpty then "An error occurred while processing your request."
    else String.mk masked

/-! ## `sanitizeErrorMessage` -/

/-- JS `haystack.toLowerCase().includes(needle.toLowerCase())`. -/
def containsCI (hay pat : String) : Bool :=
  hasSubstring (lowerChars hay) (lowerChars pat)

/-- `sanitizeErrorMessage` from the source: in development it returns the
global masker's `maskErrorMessage` (whose `enableMasking` is
`NODE_ENV === 'production'`); otherwise known patterns — checked in order
against the raw message, case-insensitively — map to fixed generic strings,
and everything else returns the masked message. -/
def sanitizeErrorMessage (nodeEnv : String) (message? : Option String) : String :=
  let masker := defaultMaskingConfig nodeEnv
  if nodeEnv == "development" then maskErrorMessage masker message?
  else
    let maskedMessage := maskErrorMessage masker message?
    let errorMessage := jsOrElse message? ""
    if containsCI errorMessage "Network error" then
      "Unable to connect to the service. Please try again later."
    else if containsCI errorMessage "GraphQL error" then
      "There was an issue processing your request."
    else if containsCI errorMessage "Timeout" then
      "Request timed out. Please try again."
    else if containsCI errorMessage "Rate limit" then
      "Too many requests. Please wait before trying again."
    else maskedMessage

/-! ## Theorems -/

mutual
theorem analyzeSelectionDepth_eq_spec (s : Selection) (d : Nat) :
    analyzeSelectionDepth s (d + 1) = d + specSelectionDepth s := by
  cases s with
  | mk name ss =>
    cases ss with
    | none => simp [analyzeSelectionDepth, specSelectionDepth]
    | some sels =>
      cases sels with
      | nil =>
        simp [analyzeSelectionDepth, selectionsDepthMax, specSelectionDepth,
          specSelectionsDepthMax]
      | cons s0 rest =>
        have h := selectionsDepthMax_eq_spec (s0 :: rest) (d + 1) (by simp)
        rw [analyzeSelectionDepth, h, specSelectionDepth]
        omega

theorem selectionsDepthMax_eq_spec (sels : List Selection) (d : Nat)
    (h : sels ≠ []) :
    selectionsDepthMax sels (d + 1) = d + specSelectionsDepthMax sels := by
  cases sels with
  | nil => exact absurd rfl h
  | cons s0 rest =>
    have h0 := analyzeSelectionDepth_eq_spec s0 d
    cases rest with
    | nil =>
      rw [selectionsDepthMax, selectionsDepthMax, h0, specSelectionsDepthMax,
        specSelectionsDepthMax]
      omega
    | cons s1 rest1 =>
      have h1 := selectionsDepthMax_eq_spec (s1 :: rest1) d (by simp)
      have e1 : selectionsDepthMax (s0 :: s1 :: rest1) (d + 1)
          = max (analyzeSelectionDepth s0 (d + 1))
              (selectionsDepthMax (s1 :: rest1) (d + 1)) := by
        rw [selectionsDepthMax]
      have e2 : specSelectionsDepthMax (s0 :: s1 :: rest1)
          = max (specSelectionDepth s0) (specSelectionsDepthMax (s1 :: rest1)) := by
        rw [specSelectionsDepthMax]
      rw [e1, e2, h0, h1]
      omega
end

/-- At the top level (`currentDepth = 1`) the source's maximum over a
selection list agrees with the spec-side maximum, also for the empty list. -/
theorem selectionsDepthMax_one (sels : List Selection) :
    selectionsDepthMax sels 1 = specSelectionsDepthMax sels := by
  cases sels with
  | nil => rfl
  | cons s0 rest =>
    have := selectionsDepthMax_eq_spec (s0 :: rest) 0 (by simp)
    simpa using this

mutual
theorem analyzeSelectionComplexity_eq_spec (s : Selection) (d : Nat) :
    analyzeSelectionComplexity s (2 ^ d) = specSelectionComplexity s d := by
  cases s with
  | mk name ss =>
    cases ss with
    | none => simp [analyzeSelectionComplexity, specSelectionComplexity]
    | some sels =>
      have h := selectionsComplexitySum_eq_spec sels (d + 1)
      have e1 : analyzeSelectionComplexity (Selection.mk name (some sels)) (2 ^ d)
          = 2 ^ d + selectionsComplexitySum sels (2 ^ d * 2) := by
        rw [analyzeSelectionComplexity]
      have e2 : (2 : Nat) ^ d * 2 = 2 ^ (d + 1) := (pow_succ 2 d).symm
      rw [e1, e2, h, specSelectionComplexity]

theorem selectionsComplexitySum_eq_spec (sels : List Selection) (d : Nat) :
    selectionsComplexitySum sels (2 ^ d) = specSelectionsComplexitySum sels d := by
  cases sels with
  | nil => simp [selectionsComplexitySum, specSelectionsComplexitySum]
  | cons s rest =>
    have h0 := analyzeSelectionComplexity_eq_spec s d
    have h1 := selectionsComplexitySum_eq_spec rest d
    have e1 : selectionsComplexitySum (s :: rest) (2 ^ d)
        = analyzeSelectionComplexity s (2 ^ d)
            + selectionsComplexitySum rest (2 ^ d) := by
      rw [selectionsComplexitySum]
    rw [e1, h0, h1, specSelectionsComplexitySum]
end

/-- At the top level (multiplier `1 = 2 ^ 0`) the source sum agrees with the
spec-side sum at nesting level 0. -/
theorem selectionsComplexitySum_one (sels : List Selection) :
    selectionsComplexitySum sels 1 = specSelectionsComplexitySum sels 0 := by
  have := selectionsComplexitySum_eq_spec sels 0
  simpa using this

theorem depth_foldl_eq (defs : List Definition) (acc : Nat) :
    defs.foldl
      (fun m definition =>
        match definition.selectionSet with
        | none => m
        | some sels => max m (selectionsDepthMax sels 1)) acc
    = defs.foldl
      (fun m definition =>
        match definition.selectionSet with
        | none => m
        | some sels => max m (specSelectionsDepthMax sels)) acc := by
  simp only [selectionsDepthMax_one]

theorem complexity_foldl_eq (defs : List Definition) (acc : Nat) :
    defs.foldl
      (fun c definition =>
        match definition.selectionSet with
        | none => c
        | some sels => c + selectionsComplexitySum sels 1) acc
    = defs.foldl
      (fun c definition =>
        match definition.selectionSet with
        | none => c
        | some sels => c + specSelectionsComplexitySum sels 0) acc := by
  simp only [selectionsComplexitySum_one]

theorem analyzeQueryDepth_eq_spec (q : QueryDocument) :
    analyzeQueryDepth q = specQueryDepth q := by
  cases hq : q.definitions with
  | none => simp [analyzeQueryDepth, specQueryDepth, hq]
  | some defs =>
    simp only [analyzeQueryDepth, specQueryDepth, hq]
    exact depth_foldl_eq defs 0

theorem analyzeQueryComplexity_eq_spec (q : QueryDocument) :
    analyzeQueryComplexity q = specQueryComplexity q := by
  cases hq : q.definitions with
  | none => simp [analyzeQueryComplexity, specQueryComplexity, hq]
  | some defs =>
    simp only [analyzeQueryComplexity, specQueryComplexity, hq]
    exact complexity_foldl_eq defs 0

/-- A list of leaf selections has spec-side maximum depth 1 when nonempty. -/
theorem specSelectionsDepthMax_leaves (names : List String) (h : names ≠ []) :
    specSelectionsDepthMax (names.map fun n => Selection.mk n none) = 1 := by
  induction names with
  | nil => exact absurd rfl h
  | cons n rest ih =>
    cases rest with
    | nil => simp [specSelectionsDepthMax, specSelectionDepth]
    | cons m rest1 =>
      have := ih (by simp)
      simp only [List.map_cons] at this ⊢
      rw [specSelectionsDepthMax, this, specSelectionDepth]
      omega

/-- The error list produced by `validateQuery`, spelled out. -/
theorem validateQuery_errors (q : QueryDocument) :
    (validateQuery q).errors
      = (if MAX_QUERY_DEPTH < analyzeQueryDepth q
            then [depthErrorMsg (analyzeQueryDepth q)] else [])
          ++ (if MAX_QUERY_COMPLEXITY < analyzeQueryComplexity q
                then [complexityErrorMsg (analyzeQueryComplexity q)] else [])
          ++ (if hasNoDefinitions q then [noDefinitionErrorMsg] else []) := rfl

/-- `valid` is exactly emptiness of the error list. -/
theorem validateQuery_valid (q : QueryDocument) :
    (validateQuery q).valid = (validateQuery q).errors.isEmpty := rfl

/-- C1: whenever the measured depth exceeds the configured maximum depth
(default 10), `validateQuery` returns `valid := false`, its error list
contains the string naming both the measured depth and the maximum, and the
depth violation does not suppress the complexity or zero-definitions errors of
the same result. -/
theorem validateQuery_depth_exceeded (q : QueryDocument)
    (h : MAX_QUERY_DEPTH < analyzeQueryDepth q) :
    (validateQuery q).valid = false
      ∧ depthErrorMsg (analyzeQueryDepth q) ∈ (validateQuery q).errors
      ∧ (MAX_QUERY_COMPLEXITY < analyzeQueryComplexity q →
          complexityErrorMsg (analyzeQueryComplexity q) ∈ (validateQuery q).errors)
      ∧ (hasNoDefinitions q = true →
          noDefinitionErrorMsg ∈ (validateQuery q).errors) := by
  have he := validateQuery_errors q
  rw [if_pos h] at he
  refine ⟨?_, ?_, ?_, ?_⟩
  · rw [validateQuery_valid, he]
    simp
  · rw [he]
    simp
  · intro hc
    rw [he, if_pos hc]
    simp
  · intro hnd
    rw [he, hnd]
    simp

/-- Witness for C1: a depth-15 chain query (which also exceeds the complexity
bound) is rejected with the depth error, and the complexity error is reported
alongside rather than suppressed. -/
theorem validateQuery_depth_exceeded_witness :
    (validateQuery (chainQuery 14)).valid = false
      ∧ depthErrorMsg 15 ∈ (validateQuery (chainQuery 14)).errors
      ∧ complexityErrorMsg 32767 ∈ (validateQuery (chainQuery 14)).errors := by
  have h := validateQuery_depth_exceeded (chainQuery 14) (by decide)
  have hd : analyzeQueryDepth (chainQuery 14) = 15 := by decide
  have hc : analyzeQueryComplexity (chainQuery 14) = 32767 := by decide
  refine ⟨h.1, ?_, ?_⟩
  · have := h.2.1
    rwa [hd] at this
  · have := h.2.2.1 (by decide)
    rwa [hc] at this

/-- C2: `analyzeQueryDepth` computes the spec's maximum nesting depth of
selection sets over all operation definitions; a document with absent or empty
definitions has depth 0, and a document whose top-level selections all lack
nested selections has depth 1. -/
theorem analyzeQueryDepth_correct :
    (∀ q : QueryDocument, analyzeQueryDepth q = specQueryDepth q)
      ∧ analyzeQueryDepth { definitions := none } = 0
      ∧ analyzeQueryDepth { definitions := some [] } = 0
      ∧ (∀ (op : String) (names : List String), names ≠ [] →
          analyzeQueryDepth (flatQuery op names) = 1) := by
  refine ⟨analyzeQueryDepth_eq_spec, rfl, rfl, ?_⟩
  intro op names h
  show (max 0 (selectionsDepthMax (names.map fun n => Selection.mk n none) 1)) = 1
  rw [selectionsDepthMax_one, specSelectionsDepthMax_leaves names h]
  omega

/-- Witness for C2: a one-field flat query has depth 1. -/
theorem analyzeQueryDepth_correct_witness :
    analyzeQueryDepth (flatQuery "query" ["a"]) = 1 :=
  analyzeQueryDepth_correct.2.2.2 "query" ["a"] (by decide)

/-- C3: `analyzeQueryComplexity` is the sum, over all operation definitions
and all their selections, of each selection's multiplier, a selection nested
`d` levels below the top contributing `2 ^ d` (top level multiplier 1, doubled
at each recursion into a child selection set). -/
theorem analyzeQueryComplexity_correct (q : QueryDocument) :
    analyzeQueryComplexity q = specQueryComplexity q :=
  analyzeQueryComplexity_eq_spec q

theorem checkRateLimit_fresh (now : Nat) (id : String) (store : RateLimitMap)
    (h : store id = none) :
    checkRateLimit now id store
      = ({ allowed := true, remaining := RATE_LIMIT - 1,
            resetTime := now + windowMs },
          fun i => if i = id then
            some { count := 1, resetTime := now + windowMs } else store i) := by
  simp only [checkRateLimit, h]
  norm_num [RATE_LIMIT]

theorem checkRateLimit_allowed (now : Nat) (id : String) (store : RateLimitMap)
    (c r : Nat) (h : store id = some { count := c, resetTime := r })
    (hin : now ≤ r) (hc : c < RATE_LIMIT) :
    checkRateLimit now id store
      = ({ allowed := true, remaining := RATE_LIMIT - (c + 1), resetTime := r },
          fun i => if i = id then
            some { count := c + 1, resetTime := r } else store i) := by
  simp only [checkRateLimit, h]
  simp [show ¬ r < now by omega, show ¬ RATE_LIMIT ≤ c by omega]

theorem checkRateLimit_blocked (now : Nat) (id : String) (store : RateLimitMap)
    (c r : Nat) (h : store id = some { count := c, resetTime := r })
    (hin : now ≤ r) (hc : RATE_LIMIT ≤ c) :
    checkRateLimit now id store
      = ({ allowed := false, remaining := 0, resetTime := r }, store) := by
  simp only [checkRateLimit, h]
  simp [show ¬ r < now by omega, show RATE_LIMIT ≤ c from hc]

theorem checkRateLimit_reset (now : Nat) (id : String) (store : RateLimitMap)
    (c r : Nat) (h : store id = some { count := c, resetTime := r })
    (hout : r < now) :
    checkRateLimit now id store
      = ({ allowed := true, remaining := RATE_LIMIT - 1,
            resetTime := now + windowMs },
          fun i => if i = id then
            some { count := 1, resetTime := now + windowMs } else store i) := by
  simp only [checkRateLimit, h]
  simp [show r < now from hout]
  norm_num [RATE_LIMIT]

/-- Invariant: calls made while the stored window is still open accumulate
the count, clamped at the limit, and never move the reset time. -/
theorem runRateLimitCalls_inWindow (id : String) (r : Nat) (ts : List Nat) :
    ∀ (store : RateLimitMap) (c : Nat),
      store id = some { count := c, resetTime := r } →
      c ≤ RATE_LIMIT →
      (∀ t ∈ ts, t ≤ r) →
      runRateLimitCalls ts id store id
        = some { count := min (c + ts.length) RATE_LIMIT, resetTime := r } := by
  induction ts with
  | nil =>
    intro store c h hc _
    have hm : min (c + ([] : List Nat).length) RATE_LIMIT = c := by
      simp
      omega
    rw [hm]
    simpa [runRateLimitCalls] using h
  | cons t ts ih =>
    intro store c h hc ht
    have htr : t ≤ r := ht t (by simp)
    have hstep : runRateLimitCalls (t :: ts) id store
        = runRateLimitCalls ts id (checkRateLimit t id store).2 := rfl
    by_cases hb : RATE_LIMIT ≤ c
    · have hblk := checkRateLimit_blocked t id store c r h htr hb
      have : (checkRateLimit t id store).2 = store := by rw [hblk]
      rw [hstep, this, ih store c h hc (fun u hu => ht u (by simp [hu]))]
      have : min (c + ts.length) RATE_LIMIT
          = min (c + (t :: ts).length) RATE_LIMIT := by
        simp
        omega
      rw [this]
    · have hal := checkRateLimit_allowed t id store c r h htr (by omega)
      have h2 : (checkRateLimit t id store).2 id
          = some { count := c + 1, resetTime := r } := by
        rw [hal]
        simp
      rw [hstep, ih _ (c + 1) h2 (by omega) (fun u hu => ht u (by simp [hu]))]
      have : min (c + 1 + ts.length) RATE_LIMIT
          = min (c + (t :: ts).length) RATE_LIMIT := by
        simp
        omega
      rw [this]

/-- C4: fixed-window rate limiting.  A fresh identifier's call opens a window
of `windowMs` with count 1 and `remaining = RATE_LIMIT - 1`; calls inside the
window below the limit are allowed with `remaining = RATE_LIMIT - newCount`
(strictly decreasing); once the count has reached the limit, in-window calls
are blocked with `remaining = 0`, the store is left untouched, and the same
`resetTime` keeps being returned; a call after the stored reset time starts a
fresh window, discarding the partial count; and a first call followed by any
in-window call sequence stores `count = min (n + 1) RATE_LIMIT`. -/
theorem checkRateLimit_correct :
    (∀ (now : Nat) (id : String) (store : RateLimitMap), store id = none →
        checkRateLimit now id store
          = ({ allowed := true, remaining := RATE_LIMIT - 1,
                resetTime := now + windowMs },
              fun i => if i = id then
                some { count := 1, resetTime := now + windowMs } else store i))
      ∧ (∀ (now : Nat) (id : String) (store : RateLimitMap) (c r : Nat),
          store id = some { count := c, resetTime := r } → now ≤ r →
          c < RATE_LIMIT →
          checkRateLimit now id store
            = ({ allowed := true, remaining := RATE_LIMIT - (c + 1),
                  resetTime := r },
                fun i => if i = id then
                  some { count := c + 1, resetTime := r } else store i))
      ∧ (∀ (now : Nat) (id : String) (store : RateLimitMap) (c r : Nat),
          store id = some { count := c, resetTime := r } → now ≤ r →
          RATE_LIMIT ≤ c →
          checkRateLimit now id store
            = ({ allowed := false, remaining := 0, resetTime := r }, store))
      ∧ (∀ (now : Nat) (id : String) (store : RateLimitMap) (c r : Nat),
          store id = some { count := c, resetTime := r } → r < now →
          checkRateLimit now id store
            = ({ allowed := true, remaining := RATE_LIMIT - 1,
                  resetTime := now + windowMs },
                fun i => if i = id then
                  some { count := 1, resetTime := now + windowMs } else store i))
      ∧ (∀ (id : String) (t0 : Nat) (ts : List Nat) (store : RateLimitMap),
          store id = none → (∀ t ∈ ts, t ≤ t0 + windowMs) →
          runRateLimitCalls (t0 :: ts) id store id
            = some { count := min (ts.length + 1) RATE_LIMIT,
                      resetTime := t0 + windowMs }) := by
  refine ⟨checkRateLimit_fresh, checkRateLimit_allowed, checkRateLimit_blocked,
    checkRateLimit_reset, ?_⟩
  intro id t0 ts store h ht
  have h1 := checkRateLimit_fresh t0 id store h
  have h2 : (checkRateLimit t0 id store).2 id
      = some { count := 1, resetTime := t0 + windowMs } := by
    rw [h1]
    simp
  have hstep : runRateLimitCalls (t0 :: ts) id store
      = runRateLimitCalls ts id (checkRateLimit t0 id store).2 := rfl
  rw [hstep, runRateLimitCalls_inWindow id (t0 + windowMs) ts _ 1 h2
    (by norm_num [RATE_LIMIT]) ht]
  have : min (1 + ts.length) RATE_LIMIT = min (ts.length + 1) RATE_LIMIT := by
    omega
  rw [this]

/-- Witness for C4: with the default limit 60, sixty immediate calls for a
fresh identifier fill the window, and the 61st call is blocked with
remaining 0 and the original reset time. -/
theorem checkRateLimit_correct_witness :
    (checkRateLimit 5 "u"
        (runRateLimitCalls (0 :: List.replicate 59 0) "u" (fun _ => none))).1
      = { allowed := false, remaining := 0, resetTime := windowMs } := by
  have h5 := checkRateLimit_correct.2.2.2.2 "u" 0 (List.replicate 59 0)
    (fun _ => none) rfl (by
      intro t htm
      have := List.eq_of_mem_replicate htm
      omega)
  have hlen : (List.replicate 59 (0 : Nat)).length = 59 := by simp
  rw [hlen] at h5
  have hmin : min (59 + 1) RATE_LIMIT = 60 := by norm_num [RATE_LIMIT]
  rw [hmin] at h5
  have hblk := checkRateLimit_correct.2.2.1 5 "u"
    (runRateLimitCalls (0 :: List.replicate 59 0) "u" (fun _ => none))
    60 (0 + windowMs) h5 (by norm_num [windowMs]) (by norm_num [RATE_LIMIT])
  rw [hblk]
  norm_num

/-- C5 counterexample: a non-finite number that sits inside an array value
passes through `sanitizeVariables` unchanged (the array branch of the source
only sanitizes string elements), so it is not the case that every non-finite
or NaN number becomes 0. -/
theorem sanitizeVariables_array_number_counterexample :
    sanitizeVariables [("x", JSValue.arr [JSValue.num JSNumber.posInf])]
      = [("x", JSValue.arr [JSValue.num JSNumber.posInf])]
      ∧ JSValue.num JSNumber.posInf ≠ JSValue.num (JSNumber.finite 0) :=
  ⟨rfl, by simp⟩

/-- C5 (amended): `sanitizeVariables` keeps every entry in order and rewrites
its value: strings (and string elements of array values, and strings in nested
mappings through the object recursion) are cleaned by stripping script blocks,
`javascript:` prefixes and `on<word>=` handler patterns and then trimming;
non-finite and NaN numbers that are mapping values become 0; booleans, null
and undefined pass through; non-string array elements pass through unchanged.
The three instances quoted by the spec hold. -/
theorem sanitizeVariables_correct :
    (∀ fields, sanitizeVariables fields
        = fields.map fun kv => (kv.1, sanitizeEntryValue kv.2))
      ∧ (∀ s, sanitizeEntryValue (JSValue.str s) = JSValue.str (sanitizeString s))
      ∧ (∀ v, sanitizeEntryValue (JSValue.num (JSNumber.finite v))
            = JSValue.num (JSNumber.finite v))
      ∧ sanitizeEntryValue (JSValue.num JSNumber.posInf)
          = JSValue.num (JSNumber.finite 0)
      ∧ sanitizeEntryValue (JSValue.num JSNumber.negInf)
          = JSValue.num (JSNumber.finite 0)
      ∧ sanitizeEntryValue (JSValue.num JSNumber.nan)
          = JSValue.num (JSNumber.finite 0)
      ∧ (∀ items, sanitizeEntryValue (JSValue.arr items)
            = JSValue.arr (items.map fun item =>
                match item with
                | JSValue.str s => JSValue.str (sanitizeString s)
                | other => other))
      ∧ (∀ fields, sanitizeEntryValue (JSValue.obj fields)
            = JSValue.obj (sanitizeVariables fields))
      ∧ sanitizeVariables [("x", JSValue.str "<script>alert(1)</script>hello")]
          = [("x", JSValue.str "hello")]
      ∧ sanitizeVariables [("x", JSValue.num JSNumber.posInf)]
          = [("x", JSValue.num (JSNumber.finite 0))]
      ∧ sanitizeVariables
            [("x", JSValue.arr [JSValue.num (JSNumber.finite 1),
                JSValue.str "<script>a</script>b", JSValue.num (JSNumber.finite 3)])]
          = [("x", JSValue.arr [JSValue.num (JSNumber.finite 1), JSValue.str "b",
                JSValue.num (JSNumber.finite 3)])] := by
  refine ⟨?_, fun s => rfl, fun v => rfl, rfl, rfl, rfl, fun items => rfl,
    fun fields => rfl, rfl, rfl, rfl⟩
  intro fields
  induction fields with
  | nil => rfl
  | cons kv rest ih =>
    cases kv with
    | mk k v => simp [sanitizeVariables, ih]

theorem hasSubstring_iff_infix (hay pat : List Char) :
    hasSubstring hay pat = true ↔ List.IsInfix pat hay := by
  induction hay with
  | nil =>
    simp only [hasSubstring, List.isEmpty_iff]
    constructor
    · intro h
      simp [h]
    · intro h
      exact List.eq_nil_of_infix_nil h
  | cons c rest ih =>
    simp only [hasSubstring, Bool.or_eq_true, List.isPrefixOf_iff_prefix, ih]
    constructor
    · rintro (h | h)
      · exact h.isInfix
      · exact h.trans (List.suffix_cons c rest).isInfix
    · intro h
      rcases List.infix_cons_iff.mp h with h | h
      · exact Or.inl h
      · exact Or.inr h

/-- C6 counterexample: with the default configuration, the field name "na" is
a case-insensitive substring of the configured partial-mask fragment "name",
so the claimed bidirectional rule classifies it as a partial-mask field — but
`isPartialMaskingField` in the source tests only one direction and returns
`false`. -/
theorem isPartialMaskingField_not_bidirectional :
    specBidirectionalMatch
        (defaultMaskingConfig "production").partialMaskingFields "na" = true
      ∧ isPartialMaskingField (defaultMaskingConfig "production") "na" = false := by
  exact ⟨by decide, by decide⟩

/-- C6 (amended): sensitive-field matching is bidirectional (some configured
sensitive fragment is a case-insensitive substring of the field name, or the
field name is a case-insensitive substring of the fragment); partial-mask
matching is one-directional only (the fragment must be a case-insensitive
substring of the field name). -/
theorem fieldMatching_correct :
    (∀ (cfg : DataMaskingConfig) (fieldName : String),
        isSensitiveField cfg fieldName
          = specBidirectionalMatch cfg.sensitiveFields fieldName)
      ∧ (∀ (cfg : DataMaskingConfig) (fieldName : String),
          isPartialMaskingField cfg fieldName
            = specOneDirectionalMatch cfg.partialMaskingFields fieldName)
      ∧ (∀ (cfg : DataMaskingConfig) (fieldName : String),
          isSensitiveField cfg fieldName = true ↔
            ∃ field ∈ cfg.sensitiveFields,
              List.IsInfix (lowerChars field) (lowerChars fieldName)
                ∨ List.IsInfix (lowerChars fieldName) (lowerChars field))
      ∧ (∀ (cfg : DataMaskingConfig) (fieldName : String),
          isPartialMaskingField cfg fieldName = true ↔
            ∃ field ∈ cfg.partialMaskingFields,
              List.IsInfix (lowerChars field) (lowerChars fieldName)) := by
  refine ⟨fun cfg f => rfl, fun cfg f => rfl, ?_, ?_⟩
  · intro cfg f
    simp [isSensitiveField, hasSubstring_iff_infix]
  · intro cfg f
    simp [isPartialMaskingField, hasSubstring_iff_infix]

/-- C7: partial masking fully masks strings of length at most 4; longer
strings keep their first and last `max 1 ⌊length·0.3⌋` characters around the
pattern; in particular a 10-character value keeps its first 3 and last 3
characters. -/
theorem partialMask_correct (cfg : DataMaskingConfig) (s : String) :
    (s.length ≤ 4 → partialMask cfg s = cfg.maskingPattern)
      ∧ (4 < s.length →
          partialMask cfg s
            = String.mk (s.data.take (max 1 (s.length * 3 / 10)))
                ++ cfg.maskingPattern
                ++ String.mk (s.data.drop (s.length - max 1 (s.length * 3 / 10))))
      ∧ (s.length = 10 →
          partialMask cfg s
            = String.mk (s.data.take 3) ++ cfg.maskingPattern
                ++ String.mk (s.data.drop 7)) := by
  refine ⟨fun h => ?_, fun h => ?_, fun h => ?_⟩
  · simp only [partialMask, if_pos h]
  · simp only [partialMask, if_neg (by omega : ¬ s.length ≤ 4)]
  · have h4 : ¬ s.length ≤ 4 := by omega
    simp only [partialMask, if_neg h4, h]
    norm_num

/-- Witness for C7: a 10-character value keeps its first 3 and last 3
characters with the default pattern between them. -/
theorem partialMask_correct_witness :
    partialMask (defaultMaskingConfig "production") "0123456789" = "012***789" := by
  have h := (partialMask_correct (defaultMaskingConfig "production")
    "0123456789").2.2 (by decide)
  rw [h]
  decide

theorem deepMaskFields_audit_eq (cfg : DataMaskingConfig)
    (fields : List (String × JSValue)) :
    deepMaskFields cfg true fields
      = (fields.filter fun kv => !(isSensitiveField cfg kv.1)).map
          fun kv => (kv.1, maskedEntryValue cfg true kv.1 kv.2) := by
  induction fields with
  | nil => rfl
  | cons kv rest ih =>
    obtain ⟨k, v⟩ := kv
    by_cases hs : isSensitiveField cfg k = true
    · cases v <;> simp [deepMaskFields, hs, List.filter_cons, ih]
    · cases v <;>
        simp [deepMaskFields, Bool.of_not_eq_true hs, List.filter_cons, ih,
          maskedEntryValue]
      split <;> rfl

theorem deepMaskFields_mask_eq (cfg : DataMaskingConfig)
    (fields : List (String × JSValue)) :
    deepMaskFields cfg false fields
      = fields.map fun kv =>
          (kv.1,
            if isSensitiveField cfg kv.1 then JSValue.str cfg.maskingPattern
            else maskedEntryValue cfg false kv.1 kv.2) := by
  induction fields with
  | nil => rfl
  | cons kv rest ih =>
    obtain ⟨k, v⟩ := kv
    by_cases hs : isSensitiveField cfg k = true
    · cases v <;> simp [deepMaskFields, hs, ih]
    · cases v <;>
        simp [deepMaskFields, Bool.of_not_eq_true hs, ih, maskedEntryValue]
      split <;> rfl

/-- C8: with `logSafeMode` enabled, `createAuditLogData` is the same deep walk
as `maskResponseData`, except that object entries matching a sensitive
fragment are deleted rather than replaced by the pattern: the audit walk keeps
exactly the non-sensitive entries (in order) and transforms their values the
same way the masking walk does, partial-mask string fields still being
partially masked; in particular an object holding only a sensitive field maps
to the empty object. -/
theorem createAuditLogData_correct (cfg : DataMaskingConfig)
    (hl : cfg.logSafeMode = true) :
    (∀ data, createAuditLogData cfg data = deepMaskObject cfg true data)
      ∧ (∀ fields, deepMaskFields cfg true fields
            = (fields.filter fun kv => !(isSensitiveField cfg kv.1)).map
                fun kv => (kv.1, maskedEntryValue cfg true kv.1 kv.2))
      ∧ (∀ fields, deepMaskFields cfg false fields
            = fields.map fun kv =>
                (kv.1,
                  if isSensitiveField cfg kv.1 then JSValue.str cfg.maskingPattern
                  else maskedEntryValue cfg false kv.1 kv.2))
      ∧ (∀ key s, isSensitiveField cfg key = false →
            isPartialMaskingField cfg key = true →
            createAuditLogData cfg (JSValue.obj [(key, JSValue.str s)])
              = JSValue.obj [(key, JSValue.str (partialMask cfg s))])
      ∧ (∀ key v, isSensitiveField cfg key = true →
            createAuditLogData cfg (JSValue.obj [(key, v)])
              = JSValue.obj []) := by
  refine ⟨fun data => by simp [createAuditLogData, hl],
    deepMaskFields_audit_eq cfg, deepMaskFields_mask_eq cfg, ?_, ?_⟩
  · intro key s hsens hpart
    simp [createAuditLogData, hl, deepMaskObject, deepMaskFields, hsens, hpart]
  · intro key v hsens
    cases v <;> simp [createAuditLogData, hl, deepMaskObject, deepMaskFields, hsens]

/-- Witness for C8: with the default production configuration, an object
holding only the sensitive field `id` audits to the empty object. -/
theorem createAuditLogData_correct_witness :
    createAuditLogData (defaultMaskingConfig "production")
        (JSValue.obj [("id", JSValue.str "123")]) = JSValue.obj [] :=
  (createAuditLogData_correct (defaultMaskingConfig "production") rfl).2.2.2.2
    "id" (JSValue.str "123") (by decide)

/-- C9: with masking disabled `maskErrorMessage` returns the raw message, or
"Unknown error" when the message is absent; with masking enabled it takes the
message (empty string when absent) and applies, in order, the digit-run, URL,
long-token, email and sensitive-field replacements, falling back to the
generic message exactly when the result is empty.  The closed conjuncts
evaluate each replacement stage on a concrete message. -/
theorem maskErrorMessage_correct (cfg : DataMaskingConfig)
    (message? : Option String) :
    (cfg.enableMasking = false →
        maskErrorMessage cfg message? = jsOrElse message? "Unknown error")
      ∧ (cfg.enableMasking = true →
          maskErrorPipeline cfg (jsOrElse message? "") ≠ [] →
          maskErrorMessage cfg message?
            = String.mk (maskSensitiveFieldMentions cfg
                (maskEmails (replaceScan tryLongToken (replaceScan tryURL
                  (maskDigitRuns cfg.maskingPattern (jsOrElse message? "").data))))))
      ∧ (cfg.enableMasking = true →
          maskErrorPipeline cfg (jsOrElse message? "") = [] →
          maskErrorMessage cfg message?
            = "An error occurred while processing your request.")
      ∧ maskErrorMessage (defaultMaskingConfig "production")
          (some "Error 123 at https://api.example.com/x?q=1")
          = "Error *** at [MASKED_URL]"
      ∧ maskErrorMessage (defaultMaskingConfig "production")
          (some "token abcdefghijklmnopqrstuvwxyz012345 leaked")
          = "token [MASKED_TOKEN] leaked"
      ∧ maskErrorMessage (defaultMaskingConfig "production")
          (some "contact user@example.com now")
          = "contact [MASKED_EMAIL] now"
      ∧ maskErrorMessage (defaultMaskingConfig "production")
          (some "id: 1234567 failed") = "id: *** failed"
      ∧ maskErrorMessage (defaultMaskingConfig "production") (some "")
          = "An error occurred while processing your request."
      ∧ maskErrorMessage (defaultMaskingConfig "development") none
          = "Unknown error" := by
  refine ⟨?_, ?_, ?_, by decide, by decide, by decide, by decide, by decide,
    by decide⟩
  · intro h
    simp [maskErrorMessage, h]
  · intro h hne
    simp only [maskErrorMessage, h, Bool.not_true, Bool.false_eq_true,
      if_false]
    rw [if_neg (by simpa [List.isEmpty_iff, maskErrorPipeline] using hne)]
    rfl
  · intro h he
    simp only [maskErrorMessage, h, Bool.not_true, Bool.false_eq_true,
      if_false]
    rw [if_pos (by simpa [List.isEmpty_iff, maskErrorPipeline] using he)]

/-- Witness for C9: the disabled branch returns the raw message; the enabled
branch equals the five-stage pipeline on a concrete message. -/
theorem maskErrorMessage_correct_witness :
    maskErrorMessage (defaultMaskingConfig "test") (some "boom") = "boom"
      ∧ maskErrorMessage (defaultMaskingConfig "production") (some "Error 404")
          = String.mk (maskSensitiveFieldMentions (defaultMaskingConfig "production")
              (maskEmails (replaceScan tryLongToken (replaceScan tryURL
                (maskDigitRuns "***" "Error 404".data))))) := by
  constructor
  · exact (maskErrorMessage_correct (defaultMaskingConfig "test")
      (some "boom")).1 rfl
  · exact (maskErrorMessage_correct (defaultMaskingConfig "production")
      (some "Error 404")).2.1 rfl (by decide)

/-- C10: outside development, `sanitizeErrorMessage` overrides the masked
message for the four known patterns (checked case-insensitively against the
raw message, in order), returning the corresponding fixed generic string; a
message matching none of them is returned as the masked message. -/
theorem sanitizeErrorMessage_production (nodeEnv : String)
    (message? : Option String) (henv : (nodeEnv == "development") = false) :
    (containsCI (jsOrElse message? "") "Network error" = true →
        sanitizeErrorMessage nodeEnv message?
          = "Unable to connect to the service. Please try again later.")
      ∧ (containsCI (jsOrElse message? "") "Network error" = false →
          containsCI (jsOrElse message? "") "GraphQL error" = true →
          sanitizeErrorMessage nodeEnv message?
            = "There was an issue processing your request.")
      ∧ (containsCI (jsOrElse message? "") "Network error" = false →
          containsCI (jsOrElse message? "") "GraphQL error" = false →
          containsCI (jsOrElse message? "") "Timeout" = true →
          sanitizeErrorMessage nodeEnv message?
            = "Request timed out. Please try again.")
      ∧ (containsCI (jsOrElse message? "") "Network error" = false →
          containsCI (jsOrElse message? "") "GraphQL error" = false →
          containsCI (jsOrElse message? "") "Timeout" = false →
          containsCI (jsOrElse message? "") "Rate limit" = true →
          sanitizeErrorMessage nodeEnv message?
            = "Too many requests. Please wait before trying again.")
      ∧ (containsCI (jsOrElse message? "") "Network error" = false →
          containsCI (jsOrElse message? "") "GraphQL error" = false →
          containsCI (jsOrElse message? "") "Timeout" = false →
          containsCI (jsOrElse message? "") "Rate limit" = false →
          sanitizeErrorMessage nodeEnv message?
            = maskErrorMessage (defaultMaskingConfig nodeEnv) message?) := by
  refine ⟨?_, ?_, ?_, ?_, ?_⟩ <;>
    intros <;>
    simp_all [sanitizeErrorMessage]

/-- Witness for C10: in production, a network-error message maps to the fixed
generic string, and an unmatched message comes back masked. -/
theorem sanitizeErrorMessage_production_witness :
    sanitizeErrorMessage "production" (some "Network error: Connection failed")
        = "Unable to connect to the service. Please try again later."
      ∧ sanitizeErrorMessage "production" (some "Some unknown error")
          = maskErrorMessage (defaultMaskingConfig "production")
              (some "Some unknown error") := by
  constructor
  · exact (sanitizeErrorMessage_production "production"
      (some "Network error: Connection failed") rfl).1 (by decide)
  · exact (sanitizeErrorMessage_production "production"
      (some "Some unknown error") rfl).2.2.2.2 (by decide) (by decide)
      (by decide) (by decide)

end GraphQLSecurity
